import Mathlib

/-!
Verification development for the `gurney` web-browsing agent
(`gurney.py`, `browser.py`, `config.py`, `api.py`).

The Python sources are shallowly embedded: pure logic is translated into
executable Lean definitions; the browser, the LLM completion service and
the environment are collaborators modelled as oracles.  JSON values are
modelled by the mutual inductive `Json`; Python strings are Lean `String`
(sequences of unicode scalar values).  Numeric JSON literals are modelled
for integers only: fraction/exponent forms (floating point) are outside
the shallow embedding, and no theorem below depends on them.
-/

-- ── JSON values (the result type of Python `json.loads`) ────────────────────

mutual

/-- A decoded JSON value, as produced by Python `json.loads`:
`None`, `bool`, `int`, `str`, `list`, `dict`. -/
inductive Json where
  | null
  | bool (b : Bool)
  | num (n : Int)
  | str (s : String)
  | arr (elems : JsonList)
  | obj (fields : JsonFields)
deriving DecidableEq

/-- A list of JSON values (spine of a Python `list`). -/
inductive JsonList where
  | nil
  | cons (hd : Json) (tl : JsonList)
deriving DecidableEq

/-- Key/value fields of a JSON object (spine of a Python `dict`;
keys are unique, later duplicates in the source text overwrite earlier
values, as in `json.loads`). -/
inductive JsonFields where
  | nil
  | cons (key : String) (val : Json) (tl : JsonFields)
deriving DecidableEq

end

def JsonList.ofList : List Json → JsonList
  | [] => .nil
  | x :: xs => .cons x (JsonList.ofList xs)

def JsonFields.ofList : List (String × Json) → JsonFields
  | [] => .nil
  | (k, v) :: rest => .cons k v (JsonFields.ofList rest)

/-- Build a JSON object from a key/value list (notation helper for
concrete inputs in theorems). -/
def Json.mkObj (l : List (String × Json)) : Json :=
  .obj (JsonFields.ofList l)

/-- Key lookup in a JSON object, first match (keys are unique by
construction of the parser, matching Python `dict` access). -/
def JsonFields.lookup : JsonFields → String → Option Json
  | .nil, _ => none
  | .cons k v rest, key => if k = key then some v else rest.lookup key

/-- Python `dict.get(key, default)`. -/
def JsonFields.get (fs : JsonFields) (k : String) (dflt : Json) : Json :=
  (fs.lookup k).getD dflt

/-- Python `key in dict`. -/
def JsonFields.hasKey (fs : JsonFields) (k : String) : Bool :=
  (fs.lookup k).isSome

/-- Python `dict` insertion used by `json.loads` on a duplicate key:
the first occurrence keeps its position, the value is overwritten. -/
def insertKV : List (String × Json) → String → Json → List (String × Json)
  | [], k, v => [(k, v)]
  | (k0, v0) :: rest, k, v =>
    if k0 = k then (k0, v) :: rest else (k0, v0) :: insertKV rest k v

/-- Python truthiness of a decoded JSON value (`if x:`). -/
def pyTruthy : Json → Bool
  | .null => false
  | .bool b => b
  | .num n => decide (n ≠ 0)
  | .str s => decide (s ≠ (""))
  | .arr l => decide (l ≠ .nil)
  | .obj f => decide (f ≠ .nil)

-- ── Characters used by the lexer ────────────────────────────────────────────

def quoteChar : Char := Char.ofNat 34

def backslashChar : Char := Char.ofNat 92

def lbraceChar : Char := Char.ofNat 123

def rbraceChar : Char := Char.ofNat 125

def apostropheChar : Char := Char.ofNat 39

/-- JSON insignificant whitespace (space, tab, newline, carriage return). -/
def isJsonWs (c : Char) : Bool :=
  c = ' ' || c = Char.ofNat 9 || c = Char.ofNat 10 || c = Char.ofNat 13

def skipWs : List Char → List Char
  | [] => []
  | c :: cs => if isJsonWs c then skipWs cs else c :: cs

-- ── Embedding of Python `json.loads` ────────────────────────────────────────

def natFromDigits (ds : List Char) : Nat :=
  ds.foldl (fun acc c => 10 * acc + (c.toNat - 48)) 0

/-- Split off a maximal run of ASCII digits. -/
def digitSpan : List Char → List Char × List Char
  | [] => ([], [])
  | c :: cs =>
    if c.isDigit then
      let p := digitSpan cs
      (c :: p.1, p.2)
    else ([], c :: cs)

/-- Parse a JSON integer literal (`-? (0 | [1-9][0-9]*)`).  The
fraction/exponent continuation of the JSON number grammar is not
modelled (floating point is outside the embedding); a literal with a
fraction part leaves the dot in the remainder and the enclosing context
rejects it, where Python would produce a `float`. -/
def parseNumber (cs : List Char) : Option (Int × List Char) :=
  let p : Bool × List Char :=
    match cs with
    | c :: rest => if c = '-' then (true, rest) else (false, cs)
    | [] => (false, [])
  match p.2 with
  | [] => none
  | c :: rest =>
    if c = '0' then some (0, rest)
    else if c.isDigit then
      let d := digitSpan (c :: rest)
      let n : Int := Int.ofNat (natFromDigits d.1)
      some (if p.1 then -n else n, d.2)
    else none

def hexDigitVal (c : Char) : Option Nat :=
  if c.isDigit then some (c.toNat - 48)
  else if 'a' ≤ c && c ≤ 'f' then some (c.toNat - 87)
  else if 'A' ≤ c && c ≤ 'F' then some (c.toNat - 55)
  else none

/-- Parse the body of a JSON string after the opening quote, returning
the decoded string and the remainder after the closing quote.  Escapes
are decoded as in Python `json.loads` (strict mode: raw control
characters and unknown escapes are rejected).  A `\uXXXX` escape
denoting a lone surrogate is outside the unicode-scalar model of
`Char`. -/
def parseStringBody : Nat → List Char → List Char → Option (String × List Char)
  | 0, _, _ => none
  | _ + 1, _, [] => none
  | fuel + 1, acc, c :: rest =>
    if c = quoteChar then some (String.mk acc.reverse, rest)
    else if c = backslashChar then
      match rest with
      | [] => none
      | e :: rest2 =>
        if e = quoteChar then parseStringBody fuel (quoteChar :: acc) rest2
        else if e = backslashChar then parseStringBody fuel (backslashChar :: acc) rest2
        else if e = '/' then parseStringBody fuel ('/' :: acc) rest2
        else if e = 'n' then parseStringBody fuel (Char.ofNat 10 :: acc) rest2
        else if e = 't' then parseStringBody fuel (Char.ofNat 9 :: acc) rest2
        else if e = 'r' then parseStringBody fuel (Char.ofNat 13 :: acc) rest2
        else if e = 'b' then parseStringBody fuel (Char.ofNat 8 :: acc) rest2
        else if e = 'f' then parseStringBody fuel (Char.ofNat 12 :: acc) rest2
        else if e = 'u' then
          match rest2 with
          | h1 :: h2 :: h3 :: h4 :: rest3 =>
            match hexDigitVal h1, hexDigitVal h2, hexDigitVal h3, hexDigitVal h4 with
            | some a, some b, some c3, some d =>
              parseStringBody fuel
                (Char.ofNat (4096 * a + 256 * b + 16 * c3 + d) :: acc) rest3
            | _, _, _, _ => none
          | _ => none
        else none
    else if c.toNat < 32 then none
    else parseStringBody fuel (c :: acc) rest

/-- Match an exact keyword prefix (`true`, `false`, `null`). -/
def dropPrefixChars : List Char → List Char → Option (List Char)
  | [], cs => some cs
  | _ :: _, [] => none
  | p :: ps, c :: cs => if c = p then dropPrefixChars ps cs else none

mutual

/-- Recursive-descent parser for a single JSON value, with explicit
fuel (any fuel larger than the construction in `jsonLoads` needs is
equivalent; fuel only bounds recursion depth). -/
def parseValue : Nat → List Char → Option (Json × List Char)
  | 0, _ => none
  | fuel + 1, cs =>
    match skipWs cs with
    | [] => none
    | c :: rest =>
      if c = quoteChar then
        match parseStringBody fuel [] rest with
        | some (s, r) => some (Json.str s, r)
        | none => none
      else if c = lbraceChar then
        match skipWs rest with
        | d :: rest2 =>
          if d = rbraceChar then some (Json.obj .nil, rest2)
          else parseMember fuel [] (d :: rest2)
        | [] => none
      else if c = '[' then
        match skipWs rest with
        | d :: rest2 =>
          if d = ']' then some (Json.arr .nil, rest2)
          else parseElem fuel [] (d :: rest2)
        | [] => none
      else if c = 't' then
        match dropPrefixChars ("rue".data) rest with
        | some r => some (Json.bool true, r)
        | none => none
      else if c = 'f' then
        match dropPrefixChars ("alse".data) rest with
        | some r => some (Json.bool false, r)
        | none => none
      else if c = 'n' then
        match dropPrefixChars ("ull".data) rest with
        | some r => some (Json.null, r)
        | none => none
      else
        match parseNumber (c :: rest) with
        | some (n, r) => some (Json.num n, r)
        | none => none

/-- Parse one `"key": value` member and continue with the object tail. -/
def parseMember : Nat → List (String × Json) → List Char → Option (Json × List Char)
  | 0, _, _ => none
  | fuel + 1, acc, cs =>
    match skipWs cs with
    | c :: rest =>
      if c = quoteChar then
        match parseStringBody fuel [] rest with
        | some (k, r1) =>
          match skipWs r1 with
          | d :: r2 =>
            if d = ':' then
              match parseValue fuel r2 with
              | some (v, r3) => parseObjTail fuel (insertKV acc k v) r3
              | none => none
            else none
          | [] => none
        | none => none
      else none
    | [] => none

/-- After a member: `,` continues the object, the closing brace ends it. -/
def parseObjTail : Nat → List (String × Json) → List Char → Option (Json × List Char)
  | 0, _, _ => none
  | fuel + 1, acc, cs =>
    match skipWs cs with
    | c :: rest =>
      if c = rbraceChar then some (Json.obj (JsonFields.ofList acc), rest)
      else if c = ',' then parseMember fuel acc rest
      else none
    | [] => none

/-- Parse one array element and continue with the array tail. -/
def parseElem : Nat → List Json → List Char → Option (Json × List Char)
  | 0, _, _ => none
  | fuel + 1, acc, cs =>
    match parseValue fuel cs with
    | some (v, r) => parseArrTail fuel (acc ++ [v]) r
    | none => none

/-- After an element: `,` continues the array, `]` ends it. -/
def parseArrTail : Nat → List Json → List Char → Option (Json × List Char)
  | 0, _, _ => none
  | fuel + 1, acc, cs =>
    match skipWs cs with
    | c :: rest =>
      if c = ']' then some (Json.arr (JsonList.ofList acc), rest)
      else if c = ',' then parseElem fuel acc rest
      else none
    | [] => none

end

/-- Python `json.loads` on a character sequence: parse one value and
require only whitespace to follow, otherwise fail (`Extra data`).  All
failure modes (`json.JSONDecodeError`) are `none`. -/
def jsonLoads (cs : List Char) : Option Json :=
  match parseValue (8 * cs.length + 8) cs with
  | some (v, rest) => if (skipWs rest).isEmpty then some v else none
  | none => none

/-- Python `json.loads` on a string. -/
def json_loads (s : String) : Option Json :=
  jsonLoads s.data

-- ── WebAgent._parse_action (gurney.py lines 119-132) ────────────────────────

/-- Index of the first occurrence of `c`. -/
def firstIdxOf (c : Char) : List Char → Option Nat
  | [] => none
  | x :: xs =>
    if x = c then some 0
    else (firstIdxOf c xs).map (fun n => n + 1)

/-- Index of the last occurrence of `c`. -/
def lastIdxOf (c : Char) (cs : List Char) : Option Nat :=
  (firstIdxOf c cs.reverse).map (fun i => cs.length - 1 - i)

/-- The match of `re.search(r"\x7b.*\x7d", text, re.DOTALL)`: with the
greedy `.*` (and `.` matching newlines under DOTALL), the match — when
one exists — runs from the first opening brace to the last closing
brace of the whole text; there is a match exactly when the first
opening brace lies before the last closing brace. -/
def extract_braces (cs : List Char) : Option (List Char) :=
  match firstIdxOf lbraceChar cs, lastIdxOf rbraceChar cs with
  | some i, some j =>
    if i < j then some ((cs.drop i).take (j - i + 1)) else none
  | _, _ => none

namespace WebAgent

/-- `WebAgent._parse_action` (gurney.py lines 119-132): strict
`json.loads` of the whole text first; on failure, `json.loads` of the
greedy brace-delimited substring; on failure (or no match), `None`.
The result is returned without checking that it is an object.  The
source's return type is a Python object-or-`None`: a decoded JSON
`null` IS Python `None`, indistinguishable from the parse-failure
return, so both decode tiers collapse a decoded `null` to the absent
result (the caller then skips the step).  In the fallback tier the
collapse can in fact never fire — the extracted substring starts with
an opening brace, so a successful decode is an object
(`jsonLoads_obj_of_lbrace` below) — but the translation keeps it so
each `return json.loads(...)` reads the same way. -/
def parse_action (text : String) : Option Json :=
  match json_loads text with
  | some v => if v = Json.null then none else some v
  | none =>
    match extract_braces text.data with
    | some sub =>
      match jsonLoads sub with
      | some v => if v = Json.null then none else some v
      | none => none
    | none => none

end WebAgent

-- ── Python text conversions (f-strings, exception rendering) ────────────────

/-- Single-quote character as a one-character string. -/
def sqStr : String := String.singleton apostropheChar

mutual

/-- Python `repr` of a decoded JSON value (used when a value is
interpolated into an f-string inside a container).  Escaping inside
`repr` of strings is not modelled; no theorem below depends on it. -/
def pyRepr : Json → String
  | .null => "None"
  | .bool b => if b then "True" else "False"
  | .num n => toString n
  | .str s => sqStr ++ s ++ sqStr
  | .arr l => ("[") ++ String.intercalate (", ") (pyReprList l) ++ ("]")
  | .obj f => ("\x7b") ++ String.intercalate (", ") (pyReprFields f) ++ ("\x7d")

def pyReprList : JsonList → List String
  | .nil => []
  | .cons v tl => pyRepr v :: pyReprList tl

def pyReprFields : JsonFields → List String
  | .nil => []
  | .cons k v tl => (sqStr ++ k ++ sqStr ++ (": ") ++ pyRepr v) :: pyReprFields tl

end

/-- Python `str` of a decoded JSON value, as an f-string interpolation
(`f"...{x}..."`) renders it. -/
def pyStr : Json → String
  | .str s => s
  | v => pyRepr v

/-- Python type name of a decoded JSON value. -/
def pyTypeName : Json → String
  | .null => "NoneType"
  | .bool _ => "bool"
  | .num _ => "int"
  | .str _ => "str"
  | .arr _ => "list"
  | .obj _ => "dict"

/-- Message of the `AttributeError` raised by `x.get(...)` when `x` is
not a dict (interpreter-defined text, abridged faithfully from
CPython). -/
def attributeErrorMsg (v : Json) : String :=
  sqStr ++ pyTypeName v ++ sqStr ++ (" object has no attribute ") ++ sqStr ++ ("get") ++ sqStr

/-- Python `str.strip()` (whitespace at both ends removed; the ASCII
whitespace set — exotic unicode spaces are not modelled and never occur
in the inputs below). -/
def isPyWs (c : Char) : Bool :=
  c = ' ' || c = Char.ofNat 9 || c = Char.ofNat 10 || c = Char.ofNat 13
    || c = Char.ofNat 11 || c = Char.ofNat 12

def pyStrip (s : String) : String :=
  String.mk (((s.data.dropWhile isPyWs).reverse.dropWhile isPyWs).reverse)

-- ── Accessibility tree rendering (gurney.py lines 64-97) ────────────────────

/-- A node of Playwright's accessibility snapshot dict.  The fields are
those `format_a11y_tree` reads, with the defaults its `.get` calls use;
the `"mixed"` tri-state of `checked` is not modelled. -/
inductive A11yNode where
  | node (role name value : String) (checked selected : Option Bool)
      (level : Option Int) (children : List A11yNode)

mutual

/-- `format_a11y_tree` on one node (gurney.py lines 64-97). -/
def formatNode : A11yNode → Nat → String
  | .node role name value checked selected level children, depth =>
    let indent := String.join (List.replicate depth ("  "))
    let parts := [role]
      ++ (if name ≠ ("") then [("\"") ++ name ++ ("\"")] else [])
      ++ (if value ≠ ("") then [("value=\"") ++ value ++ ("\"")] else [])
      ++ (match checked with
          | some c => [("checked=") ++ (if c then ("True") else ("False"))]
          | none => [])
      ++ (match selected with
          | some c => [("selected=") ++ (if c then ("True") else ("False"))]
          | none => [])
      ++ (match level with
          | some l => [("level=") ++ toString l]
          | none => [])
    String.intercalate ("\n")
      ((indent ++ ("[") ++ String.intercalate (" ") parts ++ ("]"))
        :: formatChildren children (depth + 1))

def formatChildren : List A11yNode → Nat → List String
  | [], _ => []
  | c :: cs, d => formatNode c d :: formatChildren cs d

end

/-- `format_a11y_tree` with the `None` (empty page) case. -/
def format_a11y_tree : Option A11yNode → String
  | none => "[empty page]"
  | some n => formatNode n 0

/-- `MAX_SNAPSHOT_CHARS` (gurney.py line 13). -/
def MAX_SNAPSHOT_CHARS : Nat := 48000

/-- Snapshot truncation (gurney.py lines 241-242): texts longer than
`MAX_SNAPSHOT_CHARS` keep their head and gain a visible marker. -/
def truncateSnap (t : String) : String :=
  if t.length > MAX_SNAPSHOT_CHARS then
    String.mk (t.data.take MAX_SNAPSHOT_CHARS) ++ ("\n…[truncated]")
  else t

-- ── Action executor (gurney.py lines 137-201) ───────────────────────────────

namespace Gurney

/-- One page interaction requested of the browser collaborator by
`execute_action`; the payloads are the raw values the source passes to
Playwright (uncoerced `.get` results). -/
inductive PageEffect where
  | click (role name : Json)
  | clickText (text : Json)
  | typeInto (role name text : Json) (submit : Bool)
  | fillLabel (label text : Json)
  | fillPlaceholder (placeholder text : Json)
  | goto (url : Json)
  | scroll (delta : Int)
  | wait (ms : Int)
deriving DecidableEq

/-- What `execute_action` does before/without consulting the page:
return an answer, request one page interaction, raise a pure-Python
error, or (for an unrecognized action tag) log and do nothing. -/
inductive ExecOutcome where
  | answer (t : Json)
  | effect (e : PageEffect)
  | raise (msg : String)
  | noop
deriving DecidableEq

/-- `int(secs * 1000)` (gurney.py line 196) over a decoded JSON value.
Python semantics per shape: ints and bools multiply; an all-digit
string repeats 1000 times and `int()` parses the repetition; other
shapes raise (`TypeError`/`ValueError`), which propagates to the run
loop's catch.  Unicode digits and underscore digit grouping in `int()`
are not modelled. -/
def secsToMs : Json → Except String Int
  | .num n => .ok (n * 1000)
  | .bool b => .ok (if b then 1000 else 0)
  | .str s =>
    if !s.data.isEmpty && s.data.all Char.isDigit then
      .ok (Int.ofNat (natFromDigits (List.flatten (List.replicate 1000 s.data))))
    else .error ("ValueError: invalid literal for int() with base 10")
  | .null => .error ("TypeError: unsupported operand type(s) for *: " ++ sqStr ++ "NoneType" ++ sqStr ++ " and " ++ sqStr ++ "int" ++ sqStr)
  | .arr _ => .error ("TypeError: int() argument must be a string, a bytes-like object or a real number, not " ++ sqStr ++ "list" ++ sqStr)
  | .obj _ => .error ("TypeError: unsupported operand type(s) for *: " ++ sqStr ++ "dict" ++ sqStr ++ " and " ++ sqStr ++ "int" ++ sqStr)

/-- `execute_action` (gurney.py lines 137-201).  The branch structure
follows the source: `answer` returns its text immediately; each known
action computes the page interaction it requests; an unknown tag only
logs; the `wait` branch's `int(secs * 1000)` can raise before touching
the page.  Calling it on a non-dict would raise `AttributeError` at
`action.get` (unreachable from the run loop, which crashes earlier). -/
def execute_action (action : Json) : ExecOutcome :=
  match action with
  | .obj kvs =>
    let act := kvs.get ("action") Json.null
    if act = Json.str ("answer") then
      .answer (kvs.get ("text") (Json.str ("")))
    else if act = Json.str ("click") then
      .effect (.click (kvs.get ("role") (Json.str (""))) (kvs.get ("name") (Json.str (""))))
    else if act = Json.str ("click_text") then
      .effect (.clickText (kvs.get ("text") (Json.str (""))))
    else if act = Json.str ("type") then
      .effect (.typeInto (kvs.get ("role") (Json.str ("")))
        (kvs.get ("name") (Json.str (""))) (kvs.get ("text") (Json.str ("")))
        (pyTruthy (kvs.get ("submit") (Json.bool false))))
    else if act = Json.str ("fill_label") then
      .effect (.fillLabel (kvs.get ("label") (Json.str ("")))
        (kvs.get ("text") (Json.str (""))))
    else if act = Json.str ("fill_placeholder") then
      .effect (.fillPlaceholder (kvs.get ("placeholder") (Json.str ("")))
        (kvs.get ("text") (Json.str (""))))
    else if act = Json.str ("navigate") then
      .effect (.goto (kvs.get ("url") (Json.str (""))))
    else if act = Json.str ("scroll") then
      .effect (.scroll (if kvs.get ("direction") (Json.str ("down")) = Json.str ("up") then -500 else 500))
    else if act = Json.str ("wait") then
      match secsToMs (kvs.get ("seconds") (Json.num 2)) with
      | .ok ms => .effect (.wait ms)
      | .error m => .raise m
    else .noop
  | v => .raise (attributeErrorMsg v)

-- ── Run loop (gurney.py lines 206-286) ──────────────────────────────────────

/-- One turn of the conversation history (`{"role": ..., "content": ...}`). -/
structure Turn where
  role : String
  content : String
deriving DecidableEq

/-- The mutable session state the loop threads: the `WebAgent.history`
list (goal, URL and budget are fixed parameters). -/
structure RunState where
  history : List Turn
deriving DecidableEq

/-- External collaborators of one run, as step-indexed oracles: the
page's accessibility snapshot (or the exception it raises), the page
URL, the LLM completion (the fixed system prompt plus the given
history; network failures are outside the per-step model and fatal per
the source), and the page's response to one requested interaction. -/
structure Oracles where
  goal : String
  snap : Nat → Except String (Option A11yNode)
  url : Nat → String
  model : List Turn → String
  exec : Nat → PageEffect → Except String Unit

/-- Outcome of one loop iteration: continue with a new state, return
an answer, or die on an uncaught exception. -/
inductive StepResult where
  | next (s : RunState)
  | done (answer : Json)
  | crash (msg : String)
deriving DecidableEq

/-- The observation text for step `k`: the formatted snapshot, or — when
the snapshot collaborator raises — the bracketed error rendering
(gurney.py lines 235-239). -/
def snapText (O : Oracles) (k : Nat) : String :=
  match O.snap k with
  | .ok node => format_a11y_tree node
  | .error e => ("[Error getting accessibility tree: ") ++ e ++ ("]")

/-- The `user_msg` sent to the model, given the observation text
(gurney.py lines 241-249: truncation, then goal/URL/tree assembly). -/
def userMsgOf (goal url tree : String) : String :=
  ("GOAL: ") ++ goal ++ ("\n\nCurrent URL: ") ++ url
    ++ ("\n\nAccessibility Tree:\n") ++ truncateSnap tree

/-- The `ERROR: ...` turn appended when `execute_action` raises
(gurney.py lines 277-282). -/
def failTurnMsg (act : Json) (msg : String) : String :=
  ("ERROR: Action ") ++ sqStr ++ pyStr act ++ sqStr ++ (" failed: ") ++ msg
    ++ (". Try a different approach.")

/-- One iteration of the `for step in range(1, max_steps + 1)` body,
given the observation text (gurney.py lines 241-282): build `user_msg`,
let `_chat` append the user turn and the (stripped) assistant reply,
parse an action; on parse failure skip the step; on a non-dict parse
result crash at `action.get`; otherwise execute — an answer returns
(unless its text is `None`, which falls through), a page-interaction
failure or pure raise is caught and folded into a new history turn. -/
def stepWithTree (O : Oracles) (k : Nat) (s : RunState) (tree : String) : StepResult :=
  let userMsg := userMsgOf O.goal (O.url k) tree
  let h1 := s.history ++ [⟨("user"), userMsg⟩]
  let reply := pyStrip (O.model h1)
  let h2 := h1 ++ [⟨("assistant"), reply⟩]
  match WebAgent.parse_action reply with
  | none => .next ⟨h2⟩
  | some action =>
    match action with
    | .obj kvs =>
      let act := kvs.get ("action") Json.null
      match execute_action (Json.obj kvs) with
      | .answer t => if t = Json.null then .next ⟨h2⟩ else .done t
      | .effect e =>
        match O.exec k e with
        | .ok _ => .next ⟨h2⟩
        | .error m => .next ⟨h2 ++ [⟨("user"), failTurnMsg act m⟩]⟩
      | .raise m => .next ⟨h2 ++ [⟨("user"), failTurnMsg act m⟩]⟩
      | .noop => .next ⟨h2⟩
    | v => .crash (attributeErrorMsg v)

/-- One full loop iteration, observation included. -/
def runStep (O : Oracles) (k : Nat) (s : RunState) : StepResult :=
  stepWithTree O k s (snapText O k)

/-- The history including the user turn of step `k` (what the model is
shown at that step). -/
def chatHist (O : Oracles) (k : Nat) (s : RunState) : List Turn :=
  s.history ++ [⟨("user"), userMsgOf O.goal (O.url k) (snapText O k)⟩]

/-- The stripped raw model reply at step `k`. -/
def stepReply (O : Oracles) (k : Nat) (s : RunState) : String :=
  pyStrip (O.model (chatHist O k s))

/-- The state after `_chat` of step `k` (user and assistant turns
appended), before any execution effect on the history. -/
def chatState (O : Oracles) (k : Nat) (s : RunState) : RunState :=
  ⟨chatHist O k s ++ [⟨("assistant"), stepReply O k s⟩]⟩

/-- The loop over the remaining step indices, paired with the number of
decide/execute cycles actually performed (the instrumentation count is
not part of the source; the first component is the source's return
value: `Except.error` models an exception escaping `run_agent`,
`.ok none` the exhaustion `return None`, `.ok (some a)` the answer). -/
def runSteps (O : Oracles) : List Nat → RunState → (Except String (Option Json)) × Nat
  | [], _ => (.ok none, 0)
  | k :: ks, s =>
    match runStep O k s with
    | .next s2 =>
      let r := runSteps O ks s2
      (r.1, r.2 + 1)
    | .done a => (.ok (some a), 1)
    | .crash m => (.error m, 1)

/-- `run_agent` (gurney.py lines 206-286) from the top of the `for`
loop: steps `1 .. max_steps` over the empty history. -/
def run_agent (O : Oracles) (max_steps : Nat) : (Except String (Option Json)) × Nat :=
  runSteps O (List.range' 1 max_steps) ⟨[]⟩

end Gurney

-- ── browser.py: target resolution and executor ──────────────────────────────

namespace Browser

/-- The four native lookup strategies `_resolve_locator` can produce
(browser.py lines 67-78); payloads are the raw dict values passed to
Playwright. -/
inductive LocStrategy where
  | byRole (role name : Json)
  | byText (v : Json)
  | byLabel (v : Json)
  | byPlaceholder (v : Json)
deriving DecidableEq

/-- `ValueError` message of an unresolvable target (browser.py line 78). -/
def cannotResolveMsg (target : JsonFields) : String :=
  ("Cannot resolve target: ") ++ pyRepr (Json.obj target)

/-- `_resolve_locator` (browser.py lines 67-78): fixed priority
role+name, then text, then label, then placeholder; anything else is a
hard `ValueError`. -/
def resolve_locator (target : JsonFields) : Except String LocStrategy :=
  if target.hasKey ("role") && target.hasKey ("name") then
    .ok (.byRole (target.get ("role") Json.null) (target.get ("name") Json.null))
  else if target.hasKey ("text") then .ok (.byText (target.get ("text") Json.null))
  else if target.hasKey ("label") then .ok (.byLabel (target.get ("label") Json.null))
  else if target.hasKey ("placeholder") then .ok (.byPlaceholder (target.get ("placeholder") Json.null))
  else .error (cannotResolveMsg target)

/-- `_resolve_locator` applied to an arbitrary decoded `target` value:
`"role" in target` on a non-dict raises (`TypeError`; the substring
semantics of `in` on a string argument is not modelled — no caller
below passes one). -/
def resolveTarget : Json → Except String LocStrategy
  | .obj fs => resolve_locator fs
  | v => .error (("TypeError: argument of type ") ++ sqStr ++ pyTypeName v ++ sqStr
      ++ (" is not iterable"))

/-- One page interaction requested by browser.py's `execute_action`. -/
inductive Effect where
  | click (loc : LocStrategy)
  | fill (loc : LocStrategy) (text : Json) (submit : Bool)
  | unknownAct
deriving DecidableEq

/-- What browser.py's `execute_action` (lines 81-111) does before the
settle waits: answer, one interaction, or a raise out of target
resolution. -/
inductive Outcome where
  | answer (t : Json)
  | effect (e : Effect)
  | raise (msg : String)
deriving DecidableEq

/-- `execute_action` (browser.py lines 81-111): `answer` returns its
text; `click`/`fill` resolve `target` (default `{}`) and request the
interaction, the fill text being exactly the decoded `"text"` payload —
no placeholder substitution happens anywhere in the module; unknown
tags only log. -/
def execute_action (action : Json) : Outcome :=
  match action with
  | .obj kvs =>
    let act := kvs.get ("action") Json.null
    if act = Json.str ("answer") then
      .answer (kvs.get ("text") (Json.str ("")))
    else if act = Json.str ("click") then
      match resolveTarget (kvs.get ("target") (Json.obj .nil)) with
      | .ok loc => .effect (.click loc)
      | .error m => .raise m
    else if act = Json.str ("fill") then
      match resolveTarget (kvs.get ("target") (Json.obj .nil)) with
      | .ok loc =>
        .effect (.fill loc (kvs.get ("text") (Json.str ("")))
          (pyTruthy (kvs.get ("submit") (Json.bool false))))
      | .error m => .raise m
    else .effect .unknownAct
  | v => .raise (attributeErrorMsg v)

end Browser

-- ── api.py: caller-facing response (lines 41-64) ────────────────────────────

namespace Api

/-- `RunResponse` (api.py lines 28-31). -/
structure RunResponse where
  success : Bool
  result : Option Json := none
  error : Option String := none
deriving DecidableEq

/-- The exhaustion message (api.py line 57). -/
def exhaustMsg (max_steps : Nat) : String :=
  ("Reached max steps (") ++ toString max_steps ++ (") without an answer.")

/-- The `/run` handler body (api.py lines 41-64) over the outcome of
`run_agent`: an exception becomes an HTTP 500 with the stringified
error as detail; `None` becomes `success=false` with the exhaustion
message in `error`; an answer becomes `success=true`. -/
def run (max_steps : Nat) (outcome : Except String (Option Json)) :
    Except (Nat × String) RunResponse :=
  match outcome with
  | .error e => .error (500, e)
  | .ok none => .ok ⟨false, none, some (exhaustMsg max_steps)⟩
  | .ok (some r) => .ok ⟨true, some r, none⟩

/-- The composition the service runs per request. -/
def serveRun (O : Gurney.Oracles) (max_steps : Nat) : Except (Nat × String) RunResponse :=
  run max_steps (Gurney.run_agent O max_steps).1

end Api

deriving instance DecidableEq for Except

-- ── Concrete collaborator instances for witnesses ───────────────────────────

/-- The empty session state at the top of the loop. -/
def state0 : Gurney.RunState := ⟨[]⟩

/-- A run whose model only ever emits undecodable text and whose page
never fails. -/
def garbageOracles : Gurney.Oracles where
  goal := "g"
  snap := fun _ => .ok none
  url := fun _ => "http://x"
  model := fun _ => "nope"
  exec := fun _ _ => .ok ()

/-- Like `garbageOracles`, but every page interaction raises. -/
def garbageFailOracles : Gurney.Oracles where
  goal := "g"
  snap := fun _ => .ok none
  url := fun _ => "http://x"
  model := fun _ => "nope"
  exec := fun _ _ => .error ("down")

/-- A run whose model immediately answers. -/
def answerOracles : Gurney.Oracles where
  goal := "g"
  snap := fun _ => .ok none
  url := fun _ => "http://x"
  model := fun _ => "\x7b\"action\": \"answer\", \"text\": \"done\"\x7d"
  exec := fun _ _ => .ok ()

/-- A run whose model clicks and whose page raises a timeout on every
interaction. -/
def clickFailOracles : Gurney.Oracles where
  goal := "g"
  snap := fun _ => .ok none
  url := fun _ => "http://x"
  model := fun _ => "\x7b\"action\": \"click\", \"role\": \"button\", \"name\": \"Go\"\x7d"
  exec := fun _ _ => .error ("Timeout 5000ms exceeded")

/-- A run whose model emits a bare JSON number. -/
def bareNumberOracles : Gurney.Oracles where
  goal := "g"
  snap := fun _ => .ok none
  url := fun _ => "http://x"
  model := fun _ => "3"
  exec := fun _ _ => .ok ()

/-- A run whose snapshot collaborator raises on every step. -/
def snapFailOracles : Gurney.Oracles where
  goal := "g"
  snap := fun _ => .error ("Target closed")
  url := fun _ => "http://x"
  model := fun _ => "nope"
  exec := fun _ _ => .ok ()

-- ── Shared lemmas about the run loop ────────────────────────────────────────

namespace Gurney

/-- The state after a caught execution failure at step `k`: the chat
turns plus the `ERROR: ...` user turn. -/
def failState (O : Oracles) (k : Nat) (s : RunState) (kvs : JsonFields) (msg : String) : RunState :=
  ⟨(chatState O k s).history
    ++ [⟨("user"), failTurnMsg (kvs.get ("action") Json.null) msg⟩]⟩

/-- `runStep` restated through the named helpers (`stepReply`,
`chatState`, `failState`); definitional. -/
theorem runStep_eq (O : Oracles) (k : Nat) (s : RunState) :
    runStep O k s =
      match WebAgent.parse_action (stepReply O k s) with
      | none => .next (chatState O k s)
      | some a =>
        match a with
        | .obj kvs =>
          (match execute_action (.obj kvs) with
           | .answer t => if t = Json.null then .next (chatState O k s) else .done t
           | .effect e =>
             (match O.exec k e with
              | .ok _ => .next (chatState O k s)
              | .error m => .next (failState O k s kvs m))
           | .raise m => .next (failState O k s kvs m)
           | .noop => .next (chatState O k s))
        | v => .crash (attributeErrorMsg v) :=
  rfl

/-- The cycle count never exceeds the number of remaining step indices. -/
theorem runSteps_count_le (O : Oracles) (ks : List Nat) :
    ∀ s, (runSteps O ks s).2 ≤ ks.length := by
  induction ks with
  | nil => intro s; simp [runSteps]
  | cons k ks ih =>
    intro s
    cases h : runStep O k s <;> simp [runSteps, h]
    exact ih _

/-- If every iteration continues, the loop consumes its whole index
list and returns the exhaustion outcome. -/
theorem runSteps_all_next (O : Oracles)
    (hc : ∀ k s, ∃ s2, runStep O k s = .next s2) (ks : List Nat) :
    ∀ s, runSteps O ks s = (.ok none, ks.length) := by
  induction ks with
  | nil => intro s; simp [runSteps]
  | cons k ks ih =>
    intro s
    obtain ⟨s2, h⟩ := hc k s
    simp [runSteps, h, ih s2]

end Gurney

-- ── Claims ──────────────────────────────────────────────────────────────────

/-- Claim C1 (code-bug evidence).  The claim asserts that with the
secret `username` configured (e.g. to `"alice"`), executing a fill
whose text is the placeholder token makes the field receive the secret.
The code has no credential substitution at all: `config.py` loads
`LEARNPF_USERNAME`/`LEARNPF_PASSWORD` and the system prompt mandates
the placeholder tokens, but no code ever reads the secrets back.  This
theorem evaluates both executors at the failing input: gurney.py's
`fill_label` branch (cited lines 169-181) and browser.py's `fill`
branch both hand the browser the literal token as the fill text —
which is not `"alice"` (or any other configured value; the executors do
not even take the secrets as inputs). -/
theorem c1_placeholder_filled_literally :
    Gurney.execute_action (Json.mkObj [("action", Json.str "fill_label"),
        ("label", Json.str "Username"), ("text", Json.str "\x7b\x7busername\x7d\x7d")]) =
      .effect (.fillLabel (Json.str "Username") (Json.str "\x7b\x7busername\x7d\x7d")) ∧
    Browser.execute_action (Json.mkObj [("action", Json.str "fill"),
        ("target", Json.mkObj [("label", Json.str "Username")]),
        ("text", Json.str "\x7b\x7busername\x7d\x7d"), ("submit", Json.bool false)]) =
      .effect (.fill (.byLabel (Json.str "Username")) (Json.str "\x7b\x7busername\x7d\x7d") false) ∧
    Json.str "\x7b\x7busername\x7d\x7d" ≠ Json.str "alice" := by
  refine ⟨by decide, by decide, by decide⟩

/-- Claim C3: the run loop performs at most `maxSteps` decide/execute
cycles; a step on which the executor returns an answer halts the loop
at that step and returns the answer text regardless of the remaining
budget; and if every cycle merely continues (no answer), the run
returns the exhaustion outcome (`None`) after exactly `maxSteps`
cycles. -/
theorem c3_step_budget (O : Gurney.Oracles) (m : Nat) :
    (Gurney.run_agent O m).2 ≤ m ∧
    (∀ k ks s a, Gurney.runStep O k s = .done a →
      Gurney.runSteps O (k :: ks) s = (.ok (some a), 1)) ∧
    ((∀ k s, ∃ s2, Gurney.runStep O k s = .next s2) →
      Gurney.run_agent O m = (.ok none, m)) := by
  refine ⟨?_, ?_, ?_⟩
  · have h := Gurney.runSteps_count_le O (List.range' 1 m) ⟨[]⟩
    simpa [Gurney.run_agent] using h
  · intro k ks s a h
    simp [Gurney.runSteps, h]
  · intro hc
    have h := Gurney.runSteps_all_next O hc (List.range' 1 m) ⟨[]⟩
    simpa [Gurney.run_agent] using h

/-- Witness for C3 at concrete collaborators: the budget bound, an
answer on step 2 halting with remaining indices unconsumed, and a
3-step exhaustion run. -/
theorem c3_step_budget_witness :
    (Gurney.run_agent garbageFailOracles 7).2 ≤ 7 ∧
    Gurney.runSteps answerOracles [2, 3, 4] state0 = (.ok (some (Json.str "done")), 1) ∧
    Gurney.run_agent garbageOracles 3 = (.ok none, 3) :=
  ⟨(c3_step_budget garbageFailOracles 7).1,
   (c3_step_budget answerOracles 3).2.1 2 [3, 4] state0 (Json.str "done") (by decide),
   (c3_step_budget garbageOracles 3).2.2 (fun _ s => ⟨Gurney.chatState garbageOracles _ s, rfl⟩)⟩

/-- Claim C4: when the parsed action is an object and the requested
page interaction raises, the failure is caught: the step continues
with the failure folded into a new `ERROR: ...` user turn, and the
loop proceeds to the next index with the cycle count progressing — no
executor exception escapes the loop. -/
theorem c4_exec_failure_recovered (O : Gurney.Oracles) (k : Nat) (s : Gurney.RunState)
    (kvs : JsonFields) (e : Gurney.PageEffect) (msg : String)
    (hp : WebAgent.parse_action (Gurney.stepReply O k s) = some (Json.obj kvs))
    (hx : Gurney.execute_action (Json.obj kvs) = .effect e)
    (ho : O.exec k e = .error msg) :
    Gurney.runStep O k s = .next (Gurney.failState O k s kvs msg) ∧
    ∀ ks, Gurney.runSteps O (k :: ks) s =
      ((Gurney.runSteps O ks (Gurney.failState O k s kvs msg)).1,
       (Gurney.runSteps O ks (Gurney.failState O k s kvs msg)).2 + 1) := by
  have h1 : Gurney.runStep O k s = .next (Gurney.failState O k s kvs msg) := by
    rw [Gurney.runStep_eq, hp]
    simp only [hx, ho]
  exact ⟨h1, fun ks => by simp [Gurney.runSteps, h1]⟩

/-- Witness for C4: a click whose page interaction times out on step 2
is folded into an error turn and the loop moves on. -/
theorem c4_exec_failure_recovered_witness :
    Gurney.runStep clickFailOracles 2 state0 =
      .next (Gurney.failState clickFailOracles 2 state0
        (JsonFields.ofList [("action", Json.str "click"), ("role", Json.str "button"),
          ("name", Json.str "Go")]) ("Timeout 5000ms exceeded")) ∧
    Gurney.runSteps clickFailOracles [2, 9] state0 =
      ((Gurney.runSteps clickFailOracles [9] (Gurney.failState clickFailOracles 2 state0
        (JsonFields.ofList [("action", Json.str "click"), ("role", Json.str "button"),
          ("name", Json.str "Go")]) ("Timeout 5000ms exceeded"))).1,
       (Gurney.runSteps clickFailOracles [9] (Gurney.failState clickFailOracles 2 state0
        (JsonFields.ofList [("action", Json.str "click"), ("role", Json.str "button"),
          ("name", Json.str "Go")]) ("Timeout 5000ms exceeded"))).2 + 1) := by
  have h := c4_exec_failure_recovered clickFailOracles 2 state0
    (JsonFields.ofList [("action", Json.str "click"), ("role", Json.str "button"),
      ("name", Json.str "Go")])
    (.click (Json.str "button") (Json.str "Go")) ("Timeout 5000ms exceeded")
    (by decide) (by decide) rfl
  exact ⟨h.1, h.2 [9]⟩

/-- Claim C5: when no action can be decoded from the raw model output,
the step is skipped: the state only gains the two chat turns, the
result does not depend on the executor collaborator at all (it is never
invoked), and the loop advances to the next index with the cycle count
progressing. -/
theorem c5_parse_failure_skips (goal : String) (snap : Nat → Except String (Option A11yNode))
    (url : Nat → String) (model : List Gurney.Turn → String)
    (ex1 ex2 : Nat → Gurney.PageEffect → Except String Unit) (k : Nat) (s : Gurney.RunState)
    (hp : WebAgent.parse_action (Gurney.stepReply ⟨goal, snap, url, model, ex1⟩ k s) = none) :
    Gurney.runStep ⟨goal, snap, url, model, ex1⟩ k s =
      .next (Gurney.chatState ⟨goal, snap, url, model, ex1⟩ k s) ∧
    Gurney.runStep ⟨goal, snap, url, model, ex1⟩ k s =
      Gurney.runStep ⟨goal, snap, url, model, ex2⟩ k s ∧
    ∀ ks, Gurney.runSteps ⟨goal, snap, url, model, ex1⟩ (k :: ks) s =
      ((Gurney.runSteps ⟨goal, snap, url, model, ex1⟩ ks
          (Gurney.chatState ⟨goal, snap, url, model, ex1⟩ k s)).1,
       (Gurney.runSteps ⟨goal, snap, url, model, ex1⟩ ks
          (Gurney.chatState ⟨goal, snap, url, model, ex1⟩ k s)).2 + 1) := by
  have h1 : Gurney.runStep ⟨goal, snap, url, model, ex1⟩ k s =
      .next (Gurney.chatState ⟨goal, snap, url, model, ex1⟩ k s) := by
    rw [Gurney.runStep_eq, hp]
  have h2 : Gurney.runStep ⟨goal, snap, url, model, ex2⟩ k s =
      .next (Gurney.chatState ⟨goal, snap, url, model, ex2⟩ k s) := by
    rw [Gurney.runStep_eq]
    exact hp ▸ rfl
  exact ⟨h1, h1.trans h2.symm, fun ks => by simp [Gurney.runSteps, h1]⟩

/-- Witness for C5: an undecodable reply skips the step identically
under a page that always succeeds and a page that always raises. -/
theorem c5_parse_failure_skips_witness :
    Gurney.runStep garbageOracles 1 state0 = .next (Gurney.chatState garbageOracles 1 state0) ∧
    Gurney.runStep garbageOracles 1 state0 = Gurney.runStep garbageFailOracles 1 state0 := by
  have h := c5_parse_failure_skips ("g") (fun _ => .ok none) (fun _ => ("http://x"))
    (fun _ => ("nope")) (fun _ _ => .ok ()) (fun _ _ => .error ("down")) 1 state0 (by decide)
  exact ⟨h.1, h.2.1⟩

/-- Claim C6: target resolution is deterministic with fixed priority: a
descriptor carrying role+name (with `text` also present, per the claim)
always resolves by role+name; a descriptor offering none of the four
shapes raises the hard `ValueError`. -/
theorem c6_target_priority (target : JsonFields) :
    (∀ r n, target.lookup ("role") = some r → target.lookup ("name") = some n →
      target.hasKey ("text") = true →
      Browser.resolve_locator target = .ok (.byRole r n)) ∧
    ((target.hasKey ("role") && target.hasKey ("name")) = false →
      target.hasKey ("text") = false → target.hasKey ("label") = false →
      target.hasKey ("placeholder") = false →
      Browser.resolve_locator target = .error (Browser.cannotResolveMsg target)) := by
  constructor
  · intro r n hr hn _
    simp [Browser.resolve_locator, JsonFields.hasKey, JsonFields.get, hr, hn]
  · intro h1 h2 h3 h4
    simp [Browser.resolve_locator, h1, h2, h3, h4]

/-- Witness for C6: a descriptor with role, name and text resolves by
role+name; a descriptor with only an unrecognized key errors. -/
theorem c6_target_priority_witness :
    Browser.resolve_locator (JsonFields.ofList [("role", Json.str "button"),
        ("name", Json.str "Go"), ("text", Json.str "Go")]) =
      .ok (.byRole (Json.str "button") (Json.str "Go")) ∧
    Browser.resolve_locator (JsonFields.ofList [("foo", Json.num 1)]) =
      .error (Browser.cannotResolveMsg (JsonFields.ofList [("foo", Json.num 1)])) :=
  ⟨(c6_target_priority _).1 (Json.str "button") (Json.str "Go") rfl rfl rfl,
   (c6_target_priority _).2 rfl rfl rfl rfl⟩

/-- Claim C7 counterexample: the `wait` branch applies no clamp — a
requested `seconds` of 1000000 (over eleven days) is issued to the page
verbatim as 1000000000 ms, far beyond any fixed sane maximum (e.g. one
hour), so a single model-requested `Wait` can stall the run
unboundedly. -/
theorem c7_counterexample :
    Gurney.execute_action (Json.mkObj [("action", Json.str "wait"),
        ("seconds", Json.num 1000000)]) = .effect (.wait 1000000000) ∧
    ¬((1000000000 : Int) ≤ 3600000) := by
  refine ⟨by decide, by decide⟩

/-- Claim C7 amended: the executor pauses for exactly the requested
duration with no maximum clamp — for an integer `seconds` payload `n`
the issued wait is `n * 1000` ms, and an absent `seconds` defaults to
2000 ms. -/
theorem c7_wait_unclamped (n : Int) :
    Gurney.execute_action (Json.mkObj [("action", Json.str "wait"),
        ("seconds", Json.num n)]) = .effect (.wait (n * 1000)) ∧
    Gurney.execute_action (Json.mkObj [("action", Json.str "wait")]) =
      .effect (.wait 2000) :=
  ⟨rfl, rfl⟩

/-- Claim C8 counterexample: a run that exhausts its 3-step budget is
reported with `success=false` and the `error` field populated with the
max-steps message — not absent, as the claim states. -/
theorem c8_counterexample :
    Api.run 3 (.ok none) =
      .ok ⟨false, none, some ("Reached max steps (3) without an answer.")⟩ ∧
    some ("Reached max steps (3) without an answer.") ≠ (none : Option String) := by
  refine ⟨by decide, by decide⟩

/-- Claim C8 amended: exhaustion is reported as `success=false` with
`error` set to the max-steps message; an answer is `success=true` with
`error` absent; any other failure produces no `RunResponse` at all but
an HTTP 500 error. -/
theorem c8_exhaustion_response (O : Gurney.Oracles) (m : Nat) :
    ((Gurney.run_agent O m).1 = .ok none →
      Api.serveRun O m = .ok ⟨false, none, some (Api.exhaustMsg m)⟩) ∧
    (∀ r, (Gurney.run_agent O m).1 = .ok (some r) →
      Api.serveRun O m = .ok ⟨true, some r, none⟩) ∧
    (∀ e, (Gurney.run_agent O m).1 = .error e →
      Api.serveRun O m = .error (500, e)) := by
  refine ⟨?_, ?_, ?_⟩
  · intro h; simp [Api.serveRun, Api.run, h]
  · intro r h; simp [Api.serveRun, Api.run, h]
  · intro e h; simp [Api.serveRun, Api.run, h]

/-- Witness for C8 amended: the three response shapes at concrete
collaborators. -/
theorem c8_exhaustion_response_witness :
    Api.serveRun garbageOracles 2 = .ok ⟨false, none, some (Api.exhaustMsg 2)⟩ ∧
    Api.serveRun answerOracles 5 = .ok ⟨true, some (Json.str "done"), none⟩ ∧
    Api.serveRun bareNumberOracles 4 = .error (500, attributeErrorMsg (Json.num 3)) :=
  ⟨(c8_exhaustion_response garbageOracles 2).1 (by decide),
   (c8_exhaustion_response answerOracles 5).2.1 (Json.str "done") (by decide),
   (c8_exhaustion_response bareNumberOracles 4).2.2 (attributeErrorMsg (Json.num 3)) (by decide)⟩

/-- Claim C9: `parse_action` returns decoded JSON without checking it
is an object, so a valid-JSON non-object reply — a bare number, string,
bool or list — yields a non-absent result, and the loop's subsequent
`action.get("action")` raises an uncaught `AttributeError` that aborts
the whole run at that step instead of skipping it.  The one non-object
value outside this statement is JSON `null`: it decodes to Python
`None`, indistinguishable from the parse-failure return, so a `"null"`
reply is skipped (`parse_action` never returns a present `null`). -/
theorem c9_nonobject_reply_aborts (O : Gurney.Oracles) (k : Nat) (s : Gurney.RunState)
    (v : Json) (ks : List Nat)
    (hp : WebAgent.parse_action (Gurney.stepReply O k s) = some v)
    (hnull : v ≠ Json.null)
    (hno : ∀ kvs, v ≠ Json.obj kvs) :
    Gurney.runStep O k s = .crash (attributeErrorMsg v) ∧
    Gurney.runSteps O (k :: ks) s = (.error (attributeErrorMsg v), 1) := by
  have h1 : Gurney.runStep O k s = .crash (attributeErrorMsg v) := by
    rw [Gurney.runStep_eq, hp]
    cases v with
    | obj kvs => exact absurd rfl (hno kvs)
    | null => exact absurd rfl hnull
    | bool b => rfl
    | num n => rfl
    | str st => rfl
    | arr l => rfl
  exact ⟨h1, by simp [Gurney.runSteps, h1]⟩

/-- The skip behavior at the boundary of C9: a reply of exactly
`"null"` is valid JSON but decodes to Python `None`, so the parser
reports absence and the loop skips the step rather than crashing. -/
theorem parse_action_null_skips : WebAgent.parse_action ("null") = none := by
  decide

/-- Witness for C9: the bare-number reply `"3"` parses to a non-absent
non-object and kills the whole 3-step run on step 1. -/
theorem c9_nonobject_reply_aborts_witness :
    Gurney.runStep bareNumberOracles 1 state0 = .crash (attributeErrorMsg (Json.num 3)) ∧
    Gurney.runSteps bareNumberOracles [1, 2, 3] state0 =
      (.error (attributeErrorMsg (Json.num 3)), 1) :=
  c9_nonobject_reply_aborts bareNumberOracles 1 state0 (Json.num 3) [2, 3] (by decide)
    (fun h => Json.noConfusion h) (fun _ h => Json.noConfusion h)

/-- Claim C10: when the snapshot collaborator raises at a step, the
exception is caught and rendered into the observation text (the
bracketed error message replaces the tree in the `user_msg` sent to
the model), and the step otherwise proceeds exactly as a step that
observed that text — a snapshot failure never by itself terminates the
run. -/
theorem c10_snapshot_error_recovered (O : Gurney.Oracles) (k : Nat) (s : Gurney.RunState)
    (e : String) (hs : O.snap k = .error e) :
    Gurney.runStep O k s =
      Gurney.stepWithTree O k s (("[Error getting accessibility tree: ") ++ e ++ ("]")) ∧
    Gurney.chatHist O k s = s.history ++ [⟨("user"),
      Gurney.userMsgOf O.goal (O.url k)
        (("[Error getting accessibility tree: ") ++ e ++ ("]"))⟩] := by
  constructor
  · simp [Gurney.runStep, Gurney.snapText, hs]
  · simp [Gurney.chatHist, Gurney.snapText, hs]

/-- Witness for C10: a failing snapshot on step 1 is rendered into the
observation and the run carries on. -/
theorem c10_snapshot_error_recovered_witness :
    Gurney.runStep snapFailOracles 1 state0 =
      Gurney.stepWithTree snapFailOracles 1 state0
        (("[Error getting accessibility tree: ") ++ ("Target closed") ++ ("]")) ∧
    Gurney.chatHist snapFailOracles 1 state0 = [⟨("user"),
      Gurney.userMsgOf ("g") ("http://x")
        (("[Error getting accessibility tree: ") ++ ("Target closed") ++ ("]"))⟩] := by
  have h := c10_snapshot_error_recovered snapFailOracles 1 state0 ("Target closed") rfl
  exact ⟨h.1, h.2⟩

-- ── Lemmas about the greedy brace extraction ────────────────────────────────

theorem firstIdxOf_cons_self (c : Char) (rest : List Char) :
    firstIdxOf c (c :: rest) = some 0 := by
  simp [firstIdxOf]

theorem firstIdxOf_append_of_not_mem (c : Char) (xs ys : List Char) (h : c ∉ xs) :
    firstIdxOf c (xs ++ ys) = (firstIdxOf c ys).map (fun n => n + xs.length) := by
  induction xs with
  | nil =>
    rw [List.nil_append]
    cases firstIdxOf c ys <;> simp
  | cons x xs ih =>
    have hx : ¬(x = c) := fun he => h (by simp [he])
    have hm : c ∉ xs := fun hm => h (List.mem_cons_of_mem _ hm)
    rw [List.cons_append]
    simp only [firstIdxOf, if_neg hx, ih hm]
    cases firstIdxOf c ys <;> simp [Nat.add_assoc]

/-- The greedy `re.search` model on prose-wrapped text: when the inner
segment starts with the first opening brace of the text and ends with
its last closing brace, the match is exactly that segment. -/
theorem extract_braces_wrap (p1 obj p2 : List Char)
    (hhd : obj.head? = some lbraceChar)
    (hlast : obj.getLast? = some rbraceChar)
    (hp1 : lbraceChar ∉ p1)
    (hp2 : rbraceChar ∉ p2) :
    extract_braces (p1 ++ obj ++ p2) = some obj := by
  obtain ⟨t, rfl⟩ : ∃ t, obj = lbraceChar :: t := by
    cases obj with
    | nil => simp at hhd
    | cons a t =>
      simp only [List.head?_cons, Option.some.injEq] at hhd
      exact ⟨t, by rw [hhd]⟩
  have ht : t ≠ [] := by
    intro he
    rw [he] at hlast
    simp only [List.getLast?_singleton, Option.some.injEq] at hlast
    exact absurd hlast (by decide)
  obtain ⟨r, hrev⟩ : ∃ r, (lbraceChar :: t).reverse = rbraceChar :: r := by
    have h2 : (lbraceChar :: t).reverse.head? = some rbraceChar := by
      rw [List.head?_reverse]; exact hlast
    cases hrv : (lbraceChar :: t).reverse with
    | nil => rw [hrv] at h2; simp at h2
    | cons b r =>
      rw [hrv] at h2
      simp only [List.head?_cons, Option.some.injEq] at h2
      exact ⟨r, by rw [h2]⟩
  have hfirst : firstIdxOf lbraceChar (p1 ++ (lbraceChar :: t) ++ p2) = some p1.length := by
    rw [List.append_assoc, firstIdxOf_append_of_not_mem _ _ _ hp1, List.cons_append,
      firstIdxOf_cons_self]
    simp
  have hlast2 : lastIdxOf rbraceChar (p1 ++ (lbraceChar :: t) ++ p2) =
      some (p1.length + t.length) := by
    unfold lastIdxOf
    rw [List.reverse_append, List.reverse_append, hrev, List.cons_append,
      firstIdxOf_append_of_not_mem _ _ _ (by simpa using hp2), firstIdxOf_cons_self]
    simp only [Option.map_map, Function.comp_apply, Option.map_some']
    simp only [List.length_append, List.length_reverse, List.length_cons, Option.some.injEq]
    omega
  have hlt : p1.length < p1.length + t.length := by
    have : 0 < t.length := List.length_pos_of_ne_nil ht
    omega
  simp only [extract_braces, hfirst, hlast2, if_pos hlt]
  rw [List.append_assoc, List.drop_left]
  have harith : p1.length + t.length - p1.length + 1 = t.length + 1 := by omega
  rw [harith]
  have hl : t.length + 1 = (lbraceChar :: t).length := by simp
  rw [hl, List.take_left]

-- ── Lemmas about the JSON parser ────────────────────────────────────────────

/-- A successful `parseMember`/`parseObjTail` always produces an object
value (they only ever close with `Json.obj`). -/
theorem parseMember_objTail_obj (fuel : Nat) :
    (∀ acc cs p, parseMember fuel acc cs = some p → ∃ kvs, p.1 = Json.obj kvs) ∧
    (∀ acc cs p, parseObjTail fuel acc cs = some p → ∃ kvs, p.1 = Json.obj kvs) := by
  induction fuel with
  | zero =>
    refine ⟨fun acc cs p h => ?_, fun acc cs p h => ?_⟩ <;> simp [parseMember, parseObjTail] at h
  | succ f ih =>
    refine ⟨fun acc cs p h => ?_, fun acc cs p h => ?_⟩
    · simp only [parseMember] at h
      cases hws : skipWs cs with
      | nil => simp only [hws] at h; exact Option.noConfusion h
      | cons c rest =>
        simp only [hws] at h
        by_cases hc : c = quoteChar
        · rw [if_pos hc] at h
          cases hsb : parseStringBody f [] rest with
          | none => simp only [hsb] at h; exact Option.noConfusion h
          | some kr =>
            obtain ⟨k, r1⟩ := kr
            simp only [hsb] at h
            cases hws2 : skipWs r1 with
            | nil => simp only [hws2] at h; exact Option.noConfusion h
            | cons d r2 =>
              simp only [hws2] at h
              by_cases hd : d = ':'
              · rw [if_pos hd] at h
                cases hpv : parseValue f r2 with
                | none => simp only [hpv] at h; exact Option.noConfusion h
                | some vr =>
                  obtain ⟨v1, r3⟩ := vr
                  simp only [hpv] at h
                  exact ih.2 _ _ _ h
              · rw [if_neg hd] at h
                exact Option.noConfusion h
        · rw [if_neg hc] at h
          exact Option.noConfusion h
    · simp only [parseObjTail] at h
      cases hws : skipWs cs with
      | nil => simp only [hws] at h; exact Option.noConfusion h
      | cons c rest =>
        simp only [hws] at h
        by_cases hc : c = rbraceChar
        · rw [if_pos hc] at h
          rw [Option.some.injEq] at h
          exact ⟨JsonFields.ofList acc, by rw [← h]⟩
        · rw [if_neg hc] at h
          by_cases hcm : c = ','
          · rw [if_pos hcm] at h
            exact ih.1 _ _ _ h
          · rw [if_neg hcm] at h
            exact Option.noConfusion h

/-- A text whose first character is an opening brace can only decode
(strictly) to an object: `json.loads` of the fallback substring is
never `null`, a bool, a number, a string or a list. -/
theorem jsonLoads_obj_of_lbrace (cs : List Char) (v : Json)
    (hhd : cs.head? = some lbraceChar) (hv : jsonLoads cs = some v) :
    ∃ kvs, v = Json.obj kvs := by
  obtain ⟨t, rfl⟩ : ∃ t, cs = lbraceChar :: t := by
    cases cs with
    | nil => simp at hhd
    | cons a t =>
      simp only [List.head?_cons, Option.some.injEq] at hhd
      exact ⟨t, by rw [hhd]⟩
  simp only [jsonLoads] at hv
  cases hpv : parseValue (8 * (lbraceChar :: t).length + 8) (lbraceChar :: t) with
  | none => rw [hpv] at hv; exact Option.noConfusion hv
  | some pr =>
    obtain ⟨v0, rest⟩ := pr
    simp only [hpv] at hv
    have hv0 : v0 = v := by
      by_cases hemp : (skipWs rest).isEmpty = true
      · rw [if_pos hemp] at hv; exact Option.some.inj hv
      · rw [if_neg hemp] at hv; exact absurd hv (by simp)
    subst hv0
    have hf : 8 * (lbraceChar :: t).length + 8 = (8 * (lbraceChar :: t).length + 7) + 1 := by
      omega
    rw [hf] at hpv
    have hnws : isJsonWs lbraceChar = false := by decide
    have hws : skipWs (lbraceChar :: t) = lbraceChar :: t := by
      simp [skipWs, hnws]
    simp only [parseValue, hws, reduceIte] at hpv
    rw [if_neg (show ¬(lbraceChar = quoteChar) by decide)] at hpv
    cases hws2 : skipWs t with
    | nil => simp only [hws2] at hpv; exact Option.noConfusion hpv
    | cons d rest2 =>
      simp only [hws2] at hpv
      by_cases hd : d = rbraceChar
      · rw [if_pos hd, Option.some.injEq, Prod.mk.injEq] at hpv
        exact ⟨JsonFields.nil, hpv.1.symm⟩
      · rw [if_neg hd] at hpv
        exact (parseMember_objTail_obj (8 * (lbraceChar :: t).length + 7)).1 _ _ _ hpv

-- ── Claim C2: parse_action recovery ─────────────────────────────────────────

/-- All contiguous nonempty slices of a character sequence. -/
def slicesOf (cs : List Char) : List (List Char) :=
  (List.range (cs.length + 1)).flatMap (fun i =>
    (List.range (cs.length + 1)).filterMap (fun j =>
      if i < j then some ((cs.drop i).take (j - i)) else none))

def isObjValue : Json → Bool
  | .obj _ => true
  | _ => false

/-- The distinct JSON object values decodable (by strict `json.loads`)
from some contiguous slice of the text — the formalization of "the
well-formed JSON objects contained anywhere in the text". -/
def decodedObjectValues (cs : List Char) : List Json :=
  (((slicesOf cs).filterMap jsonLoads).filter isObjValue).dedup

/-- Claim C2 counterexample: the text `go {"action": "answer"} ok}`
contains exactly one well-formed JSON action object, yet
`parse_action` returns absent: the fallback is the greedy first-brace
to last-brace span (here swallowing the stray closing brace of the
trailing prose), not the first balanced object. -/
theorem c2_counterexample :
    decodedObjectValues (("go \x7b\"action\": \"answer\"\x7d ok\x7d").data) =
      [Json.mkObj [("action", Json.str "answer")]] ∧
    WebAgent.parse_action ("go \x7b\"action\": \"answer\"\x7d ok\x7d") = none := by
  refine ⟨by decide, by decide⟩

/-- Claim C2 amended: when the strict whole-text decode fails,
`parse_action` recovers the embedded object for texts of the form
`prose1 ++ object ++ prose2` where the object text starts with the
first opening brace of the whole text and ends with its last closing
brace (no opening brace in the leading prose, no closing brace in the
trailing prose — e.g. markdown fences and ordinary prose); the fallback
extracts the greedy first-opening-brace to last-closing-brace span, so
a stray brace in the surrounding prose can defeat recovery. -/
theorem c2_prose_wrapped_recovery (p1 obj p2 : List Char) (v : Json)
    (hhd : obj.head? = some lbraceChar)
    (hlast : obj.getLast? = some rbraceChar)
    (hp1 : lbraceChar ∉ p1)
    (hp2 : rbraceChar ∉ p2)
    (hv : jsonLoads obj = some v)
    (hstrict : jsonLoads (p1 ++ obj ++ p2) = none) :
    WebAgent.parse_action (String.mk (p1 ++ obj ++ p2)) = some v := by
  have h1 : json_loads (String.mk (p1 ++ obj ++ p2)) = none := hstrict
  have hb2 : extract_braces (String.mk (p1 ++ obj ++ p2)).data = some obj :=
    extract_braces_wrap p1 obj p2 hhd hlast hp1 hp2
  simp only [WebAgent.parse_action, h1, hb2, hv]
  obtain ⟨kvs, rfl⟩ := jsonLoads_obj_of_lbrace obj v hhd hv
  rw [if_neg (show Json.obj kvs ≠ Json.null from fun hcon => Json.noConfusion hcon)]

/-- Witness for C2 amended: prose-wrapped answer object recovered. -/
theorem c2_prose_wrapped_recovery_witness :
    WebAgent.parse_action (String.mk (("Sure: ").data
        ++ ("\x7b\"action\": \"answer\", \"text\": \"42\"\x7d").data
        ++ (" done.").data)) =
      some (Json.mkObj [("action", Json.str "answer"), ("text", Json.str "42")]) :=
  c2_prose_wrapped_recovery (("Sure: ").data)
    (("\x7b\"action\": \"answer\", \"text\": \"42\"\x7d").data)
    ((" done.").data)
    (Json.mkObj [("action", Json.str "answer"), ("text", Json.str "42")])
    (by decide) (by decide) (by decide) (by decide) (by decide) (by decide)

